import Mathlib

/-!
Shallow embedding of the broadcast bot's delivery-scheduling core
(`bot/db.py` and `bot/scheduler.py`).

Timestamps (`datetime` values) are embedded as `Int`, ordered as wall-clock
instants; Telegram chat ids are `Int`.  Python string helpers `str.strip()`
and `str.lower()` are embedded list-wise (`pyStrip`, `pyLower`) so that the
definitions evaluate inside the kernel.  Python truthiness of an
`Optional[str]` (falsy when `None` or `""`) is `optTruthy`.
-/

namespace EnglishBot

/-- Python `str.strip()`: drop leading and trailing whitespace. -/
def pyStrip (s : String) : String :=
  ⟨((s.data.dropWhile Char.isWhitespace).reverse.dropWhile Char.isWhitespace).reverse⟩

/-- Python `str.lower()`. -/
def pyLower (s : String) : String :=
  ⟨s.data.map Char.toLower⟩

/-- Python truthiness of an `Optional[str]` value: `None` and `""` are falsy. -/
def optTruthy : Option String → Bool
  | none => false
  | some s => !s.isEmpty

/-- Row of the `posts` table (`db.py`, class `Post`). -/
structure Post where
  id : Int
  title : String
  level : String
  text : String
  media_type : Option String
  file_id : Option String
  send_at : Int
  sent : Bool
  sent_at : Option Int
  created_at : Int
  updated_at : Int
deriving DecidableEq, Repr

/-- Row of the `users` table (`db.py`, class `User`). -/
structure User where
  id : Int
  telegram_id : Int
  level : Option String
deriving DecidableEq, Repr

/-- One item of a post's media group, as consumed by `_deliver_post_to_user`
(the rows returned by `get_post_media`: a `media_type` tag and a Telegram
`file_id`). -/
structure MediaItem where
  media_type : String
  file_id : String
deriving DecidableEq, Repr

/- ---------------------------------------------------------------------
   db.py: the post-store operations (the posts table is a `List Post`,
   the users table a `List User`; `id` / `telegram_id` are primary keys,
   so updates that locate a row by id are embedded as a map over the list).
   --------------------------------------------------------------------- -/

/-- `get_post` (db.py): first row with the given id. -/
def get_post (posts : List Post) (post_id : Int) : Option Post :=
  posts.find? fun p => p.id == post_id

/-- `get_all_users` (db.py). -/
def get_all_users (users : List User) : List User :=
  users

/-- `get_users_by_level` (db.py): rows whose `level` column equals the value
(a `NULL` level matches nothing). -/
def get_users_by_level (users : List User) (level : String) : List User :=
  users.filter fun u => u.level == some level

/-- `get_unsent_due_posts` (db.py): `sent == False` and `send_at <= now`. -/
def get_unsent_due_posts (posts : List Post) (now : Int) : List Post :=
  posts.filter fun p => !p.sent && decide (p.send_at ≤ now)

/-- `get_unsent_future_posts` (db.py): `sent == False` and `send_at > now`. -/
def get_unsent_future_posts (posts : List Post) (now : Int) : List Post :=
  posts.filter fun p => !p.sent && decide (now < p.send_at)

/-- `create_post` (db.py): a fresh row with `sent=False` and no media; the
database assigns the id (`new_id`) and the column defaults stamp `now`. -/
def create_post (posts : List Post) (title text : String) (send_at : Int)
    (level : String) (new_id now : Int) : List Post :=
  posts ++ [⟨new_id, pyStrip title, level, text, none, none, send_at, false, none, now, now⟩]

/-- `update_post_text_title` (db.py): optional new title (stripped) and text. -/
def update_post_text_title (posts : List Post) (post_id : Int)
    (title? text? : Option String) (now : Int) : List Post :=
  posts.map fun p =>
    if p.id = post_id then
      { p with
        title := match title? with
          | some t => pyStrip t
          | none => p.title
        text := match text? with
          | some t => t
          | none => p.text
        updated_at := now }
    else p

/-- `update_post_content` (db.py): replace text and single-media fields. -/
def update_post_content (posts : List Post) (post_id : Int) (text : String)
    (media_type file_id : Option String) (now : Int) : List Post :=
  posts.map fun p =>
    if p.id = post_id then
      { p with text := text, media_type := media_type, file_id := file_id, updated_at := now }
    else p

/-- `update_post_send_time` (db.py): move `send_at` and reset `sent`/`sent_at`. -/
def update_post_send_time (posts : List Post) (post_id : Int) (send_at : Int)
    (now : Int) : List Post :=
  posts.map fun p =>
    if p.id = post_id then
      { p with send_at := send_at, sent := false, sent_at := none, updated_at := now }
    else p

/-- `update_post_level` (db.py). -/
def update_post_level (posts : List Post) (post_id : Int) (level : String)
    (now : Int) : List Post :=
  posts.map fun p =>
    if p.id = post_id then { p with level := level, updated_at := now } else p

/-- `delete_post` (db.py). -/
def delete_post (posts : List Post) (post_id : Int) : List Post :=
  posts.filter fun p => !(p.id == post_id)

/-- `mark_post_sent` (db.py): set `sent=True` and `sent_at` together. -/
def mark_post_sent (posts : List Post) (post_id : Int) (sent_at now : Int) : List Post :=
  posts.map fun p =>
    if p.id = post_id then
      { p with sent := true, sent_at := some sent_at, updated_at := now }
    else p

/- ---------------------------------------------------------------------
   scheduler.py: recipient resolution (lines 44-56 of `_send_post`).
   --------------------------------------------------------------------- -/

/-- `dict.fromkeys` deduplication with an explicit seen-accumulator:
keeps the first occurrence of each element, in order. -/
def uniqFirstGo (seen : List Int) : List Int → List Int
  | [] => []
  | x :: xs => if x ∈ seen then uniqFirstGo seen xs else x :: uniqFirstGo (x :: seen) xs

/-- `list(dict.fromkeys(...))` (scheduler.py line 56). -/
def uniqFirst (l : List Int) : List Int :=
  uniqFirstGo [] l

/-- Recipient resolution of `_send_post` (scheduler.py lines 44-56):
branch on the post's level, append the configured administrator ids,
deduplicate keeping first occurrences. -/
def resolveRecipients (users : List User) (admin_ids : List Int) (level : String) : List Int :=
  uniqFirst
    (if level = "admins" then admin_ids
     else if level = "all" then (get_all_users users).map (·.telegram_id) ++ admin_ids
     else (get_users_by_level users level).map (·.telegram_id) ++ admin_ids)

/- ---------------------------------------------------------------------
   scheduler.py: the per-recipient delivery loop of `_send_post`
   (lines 61-78).  The success or failure of one network send is
   exogenous, so it is supplied by an oracle `outcomes : chat id →
   list of outcomes of successive attempts`; the loop makes exactly one
   attempt per recipient and consumes the first outcome.  Pauses are
   recorded in milliseconds (`asyncio.sleep(0.04)` → 40 ms,
   `asyncio.sleep(float(e.retry_after) + 0.5)` → 1000·t + 500 ms).
   --------------------------------------------------------------------- -/

/-- Outcome of one send attempt to one recipient: success, or one of the
exceptions handled in `_send_post` (`TelegramRetryAfter` with an integer
retry-after time in seconds, `TelegramForbiddenError`,
`TelegramBadRequest`, any other exception). -/
inductive Outcome where
  | success
  | retryAfter (t : Nat)
  | forbidden
  | badRequest
  | otherError
deriving DecidableEq, Repr

/-- Observable event of the delivery loop: a send attempt to a chat, or an
`asyncio.sleep` of some number of milliseconds. -/
inductive LoopEvent where
  | attempt (chat : Int)
  | sleepMs (ms : Nat)
deriving DecidableEq, Repr

/-- The inter-send delay `asyncio.sleep(0.04)` (scheduler.py line 68), in ms. -/
def sendDelayMs : Nat := 40

/-- The `for chat_id in chat_ids` loop of `_send_post` (lines 61-78).
Returns `(sent_count, recipients counted in sent_count, event trace)`.
On success: count the recipient and sleep 40 ms.  On `TelegramRetryAfter t`:
sleep `t + 0.5` seconds and move on to the next recipient.  On the other
handled exceptions: move on.  (Whether the attempt renders the teaser or
the post body — lines 63-66 — does not affect this control flow and is
absorbed into the outcome oracle.) -/
def deliverLoop (outcomes : Int → List Outcome) : List Int → Nat × List Int × List LoopEvent
  | [] => (0, [], [])
  | chat :: rest =>
    let o := (outcomes chat).headD Outcome.success
    let r := deliverLoop outcomes rest
    match o with
    | Outcome.success =>
        (1 + r.1, chat :: r.2.1,
          LoopEvent.attempt chat :: LoopEvent.sleepMs sendDelayMs :: r.2.2)
    | Outcome.retryAfter t =>
        (r.1, r.2.1,
          LoopEvent.attempt chat :: LoopEvent.sleepMs (1000 * t + 500) :: r.2.2)
    | _ => (r.1, r.2.1, LoopEvent.attempt chat :: r.2.2)

/-- Number of send attempts made to a given chat in a trace. -/
def countAttempts (chat : Int) (evs : List LoopEvent) : Nat :=
  (evs.filter fun e => e == LoopEvent.attempt chat).length

/-- Result of one `_send_post` run: the post store afterwards, the
`sent_count`/`total_count` pair reported to the admins, the recipients that
were counted, the loop's event trace, and whether the run reached the
mark-sent/summary step at all. -/
structure SendPostResult where
  posts : List Post
  delivered : Nat
  total : Nat
  counted : List Int
  events : List LoopEvent
  completed : Bool
deriving DecidableEq, Repr

/-- `_send_post` (scheduler.py lines 33-85): re-read the post by id; bail out
if it is missing or already sent; resolve recipients; run the delivery loop;
mark the post sent and report the summary. -/
def send_post (posts : List Post) (users : List User) (admin_ids : List Int)
    (outcomes : Int → List Outcome) (post_id : Int) (now : Int) : SendPostResult :=
  match get_post posts post_id with
  | none => ⟨posts, 0, 0, [], [], false⟩
  | some post =>
    if post.sent then ⟨posts, 0, 0, [], [], false⟩
    else
      let chat_ids := resolveRecipients users admin_ids post.level
      let r := deliverLoop outcomes chat_ids
      ⟨mark_post_sent posts post_id now now, r.1, chat_ids.length, r.2.1, r.2.2, true⟩

/- ---------------------------------------------------------------------
   scheduler.py: job management (`_job_id`, `schedule_or_send_now`,
   `unschedule_post`, `setup_scheduler`).  The APScheduler job table is a
   list of (job id, run date) pairs keyed by the string job id.
   --------------------------------------------------------------------- -/

/-- `_job_id` (scheduler.py line 29). -/
def job_id (post_id : Int) : String :=
  "post_" ++ toString post_id

/-- One armed one-shot timer: its APScheduler job id and its run date. -/
abbrev Job := String × Int

/-- `scheduler.remove_job(jid)`: drop the job with that id (APScheduler job
ids are unique keys). -/
def remove_job (jobs : List Job) (jid : String) : List Job :=
  jobs.filter fun j => !(j.1 == jid)

/-- Externally visible scheduling action: an immediate delivery dispatched
as a background task (`asyncio.create_task(_send_post ...)`). -/
inductive SchedAction where
  | dispatch (post_id : Int)
deriving DecidableEq, Repr

/-- `schedule_or_send_now` (scheduler.py lines 223-254): no-op on a sent
post; otherwise best-effort removal of any timer for this post id, then
either dispatch now (if due) or arm one timer at `send_at`.  Returns the
job table afterwards and the dispatched actions. -/
def schedule_or_send_now (jobs : List Job) (post : Post) (now : Int) :
    List Job × List SchedAction :=
  if post.sent then (jobs, [])
  else
    let jobs1 := remove_job jobs (job_id post.id)
    if post.send_at ≤ now then (jobs1, [SchedAction.dispatch post.id])
    else (jobs1 ++ [(job_id post.id, post.send_at)], [])

/-- `unschedule_post` (scheduler.py lines 257-261). -/
def unschedule_post (jobs : List Job) (post_id : Int) : List Job :=
  remove_job jobs (job_id post_id)

/-- The `for post in future` loop of `setup_scheduler` (scheduler.py lines
277-278): run `schedule_or_send_now` on each post, threading the job table
and accumulating the dispatched actions. -/
def arm_loop (now : Int) (future : List Post) (init : List Job × List SchedAction) :
    List Job × List SchedAction :=
  future.foldl
    (fun acc p =>
      let r := schedule_or_send_now acc.1 p now
      (r.1, acc.2 ++ r.2))
    init

/-- `setup_scheduler` (scheduler.py lines 264-282): start with an empty job
table; dispatch every unsent due post immediately; run
`schedule_or_send_now` for every unsent future post.  Returns the final job
table and the dispatched actions. -/
def setup_scheduler (posts : List Post) (now : Int) : List Job × List SchedAction :=
  let due := get_unsent_due_posts posts now
  let dueActions := due.map fun p => SchedAction.dispatch p.id
  let future := get_unsent_future_posts posts now
  let armed := arm_loop now future ([], [])
  (armed.1, dueActions ++ armed.2)

/- ---------------------------------------------------------------------
   scheduler.py: content rendering (`_deliver_post_to_user`, lines 88-157).
   --------------------------------------------------------------------- -/

/-- One item of the grouped album call (`InputMediaPhoto`/`InputMediaVideo`):
photo-or-video, the `file_id`, and the caption argument passed (which the
source sets to the caption string on index 0 and `None` elsewhere). -/
structure AlbumItem where
  isPhoto : Bool
  media : String
  caption : Option String
deriving DecidableEq, Repr

/-- One platform send call made by `_deliver_post_to_user`. -/
inductive SendCall where
  | mediaGroup (items : List AlbumItem)
  | message (text : String)
  | photo (fid : String) (caption : String)
  | video (fid : String) (caption : String)
  | document (fid : String) (caption : String)
  | audio (fid : String) (caption : String)
  | voice (fid : String) (caption : String)
  | videoNote (fid : String)
deriving DecidableEq, Repr

/-- The album-building loop of `_deliver_post_to_user` (lines 106-124):
`for idx, item in enumerate(media_items)`, keeping photo/video items and
putting the caption on `idx == 0` only.  `idx` is the index in
`media_items`, not in the album built so far. -/
def albumItemsFrom (caption : String) (idx : Nat) : List MediaItem → List AlbumItem
  | [] => []
  | item :: rest =>
    let itype := pyLower (pyStrip item.media_type)
    (if itype = "photo" then
      [⟨true, item.file_id, if idx = 0 then some caption else none⟩]
     else if itype = "video" then
      [⟨false, item.file_id, if idx = 0 then some caption else none⟩]
     else []) ++ albumItemsFrom caption (idx + 1) rest

/-- The album built by `_deliver_post_to_user` for given caption and items. -/
def albumOf (caption : String) (media_items : List MediaItem) : List AlbumItem :=
  albumItemsFrom caption 0 media_items

/-- `_deliver_post_to_user` (scheduler.py lines 88-157) as the list of
platform send calls it makes, in order.  Parse-mode flags are elided. -/
def deliver_post_to_user (post : Post) (media_items : List MediaItem) : List SendCall :=
  let media_type := pyLower (pyStrip (post.media_type.getD ""))
  let file_id := post.file_id
  let text := post.text
  if !media_items.isEmpty then
    let caption := if text.length ≤ 1024 then text else ""
    let tail_text := if !caption.isEmpty then "" else text
    let album := albumOf caption media_items
    if !album.isEmpty then
      SendCall.mediaGroup album ::
        (if !(pyStrip tail_text).isEmpty then [SendCall.message tail_text] else [])
    else if media_type.isEmpty || !optTruthy file_id then [SendCall.message text]
    else deliverSingle media_type (file_id.getD "") text
  else if media_type.isEmpty || !optTruthy file_id then [SendCall.message text]
  else deliverSingle media_type (file_id.getD "") text
where
  /-- The single-media dispatch of lines 136-157 (media type known non-empty,
  file id present). -/
  deliverSingle (media_type fid text : String) : List SendCall :=
    if media_type = "photo" then [SendCall.photo fid text]
    else if media_type = "video" then [SendCall.video fid text]
    else if media_type = "document" then [SendCall.document fid text]
    else if media_type = "audio" then [SendCall.audio fid text]
    else if media_type = "voice" then [SendCall.voice fid text]
    else if media_type = "video_note" then
      SendCall.videoNote fid ::
        (if !(pyStrip text).isEmpty then [SendCall.message text] else [])
    else [SendCall.message text]

/-- The `misfire_grace_time=60*60` passed to `scheduler.add_job` in
`schedule_or_send_now` (scheduler.py line 253), in seconds. -/
def misfire_grace_time : Nat := 60 * 60

/-- Firing decision for an armed one-shot timer, following APScheduler's
documented misfire semantics for the `DateTrigger` job armed in
`schedule_or_send_now`: when the scheduler wakes up past the job's run
date, the job still runs if the delay is at most `misfire_grace_time`
seconds; a later wakeup skips the run as a misfire. -/
def timerFires (send_at wake : Int) : Bool :=
  decide (wake - send_at ≤ (misfire_grace_time : Int))

/-- The data-model invariant on one post row: `sent == true ⇒ sent_at != null`. -/
def postInv (p : Post) : Prop :=
  p.sent = true → p.sent_at ≠ none

/-- The invariant over a whole posts table. -/
def storeInv (posts : List Post) : Prop :=
  ∀ p ∈ posts, postInv p

instance (p : Post) : Decidable (postInv p) :=
  inferInstanceAs (Decidable (p.sent = true → p.sent_at ≠ none))

instance (posts : List Post) : Decidable (storeInv posts) :=
  inferInstanceAs (Decidable (∀ p ∈ posts, postInv p))

/- ---------------------------------------------------------------------
   Helper lemmas about first-occurrence deduplication.
   --------------------------------------------------------------------- -/

theorem mem_uniqFirstGo {a : Int} {seen l : List Int} :
    a ∈ uniqFirstGo seen l ↔ a ∈ l ∧ a ∉ seen := by
  induction l generalizing seen with
  | nil => simp [uniqFirstGo]
  | cons x xs ih =>
    by_cases hx : x ∈ seen
    · simp only [uniqFirstGo, if_pos hx, ih, List.mem_cons]
      constructor
      · exact fun ⟨h1, h2⟩ => ⟨Or.inr h1, h2⟩
      · rintro ⟨h1 | h1, h2⟩
        · exact absurd hx (h1 ▸ h2)
        · exact ⟨h1, h2⟩
    · simp only [uniqFirstGo, if_neg hx, List.mem_cons, ih, List.mem_cons]
      constructor
      · rintro (rfl | ⟨h1, h2⟩)
        · exact ⟨Or.inl rfl, hx⟩
        · exact ⟨Or.inr h1, fun hs => h2 (Or.inr hs)⟩
      · rintro ⟨rfl | h1, h2⟩
        · exact Or.inl rfl
        · by_cases hax : a = x
          · exact Or.inl hax
          · exact Or.inr ⟨h1, fun hs => h2 (hs.resolve_left hax)⟩

theorem nodup_uniqFirstGo (seen l : List Int) : (uniqFirstGo seen l).Nodup := by
  induction l generalizing seen with
  | nil => simp [uniqFirstGo]
  | cons x xs ih =>
    by_cases hx : x ∈ seen
    · simpa [uniqFirstGo, if_pos hx] using ih seen
    · simp only [uniqFirstGo, if_neg hx]
      refine List.nodup_cons.mpr ⟨?_, ih (x :: seen)⟩
      intro hmem
      exact (mem_uniqFirstGo.mp hmem).2 (List.mem_cons_self x seen)

theorem uniqFirstGo_congr {s1 s2 : List Int} (h : ∀ a, a ∈ s1 ↔ a ∈ s2) :
    ∀ l : List Int, uniqFirstGo s1 l = uniqFirstGo s2 l := by
  intro l
  induction l generalizing s1 s2 with
  | nil => simp [uniqFirstGo]
  | cons x xs ih =>
    by_cases hx : x ∈ s1
    · rw [uniqFirstGo, uniqFirstGo, if_pos hx, if_pos ((h x).mp hx)]
      exact ih h
    · rw [uniqFirstGo, uniqFirstGo, if_neg hx, if_neg (fun h2 => hx ((h x).mpr h2))]
      congr 1
      refine ih fun a => ?_
      simp only [List.mem_cons, h a]

theorem uniqFirstGo_append (seen xs ys : List Int) :
    uniqFirstGo seen (xs ++ ys) = uniqFirstGo seen xs ++ uniqFirstGo (xs ++ seen) ys := by
  induction xs generalizing seen with
  | nil => simp [uniqFirstGo]
  | cons x xs ih =>
    by_cases hx : x ∈ seen
    · simp only [List.cons_append, uniqFirstGo, if_pos hx, List.append_eq]
      rw [ih seen]
      congr 1
      refine uniqFirstGo_congr (fun a => ?_) ys
      simp only [List.cons_append, List.mem_cons, List.mem_append]
      constructor
      · rintro (h | h) <;> simp_all
      · rintro (rfl | h | h) <;> simp_all
    · simp only [List.cons_append, uniqFirstGo, if_neg hx, List.append_eq]
      rw [ih (x :: seen)]
      congr 2
      refine uniqFirstGo_congr (fun a => ?_) ys
      simp only [List.mem_append, List.mem_cons]
      tauto

theorem uniqFirstGo_eq_self {seen l : List Int} (hdisj : ∀ a ∈ l, a ∉ seen)
    (hnd : l.Nodup) : uniqFirstGo seen l = l := by
  induction l generalizing seen with
  | nil => rfl
  | cons x xs ih =>
    rw [uniqFirstGo, if_neg (hdisj x (List.mem_cons_self x xs))]
    congr 1
    refine ih (fun a ha => ?_) (List.nodup_cons.mp hnd).2
    intro hmem
    rcases List.mem_cons.mp hmem with rfl | hmem2
    · exact (List.nodup_cons.mp hnd).1 ha
    · exact hdisj a (List.mem_cons_of_mem x ha) hmem2

theorem resolveRecipients_all_eq (users : List User) (admin_ids : List Int) :
    resolveRecipients users admin_ids "all" =
      uniqFirst (users.map User.telegram_id ++ admin_ids) := by
  simp [resolveRecipients, get_all_users]

/-- C3: for a post with `level == "all"`, the resolved recipient list contains
every registered subscriber's id and every configured administrator id, has
no duplicates, and is the subscribers in store order followed by the
administrators not already included (admin ids deduplicated, in order). -/
theorem C3_all_recipients (users : List User) (admin_ids : List Int)
    (hnd : (users.map User.telegram_id).Nodup) :
    (∀ u ∈ users, u.telegram_id ∈ resolveRecipients users admin_ids "all") ∧
    (∀ a ∈ admin_ids, a ∈ resolveRecipients users admin_ids "all") ∧
    (resolveRecipients users admin_ids "all").Nodup ∧
    resolveRecipients users admin_ids "all" =
      users.map User.telegram_id ++ uniqFirstGo (users.map User.telegram_id) admin_ids ∧
    (∀ a ∈ uniqFirstGo (users.map User.telegram_id) admin_ids,
      a ∈ admin_ids ∧ a ∉ users.map User.telegram_id) := by
  have key : resolveRecipients users admin_ids "all" =
      users.map User.telegram_id ++ uniqFirstGo (users.map User.telegram_id) admin_ids := by
    rw [resolveRecipients_all_eq, uniqFirst, uniqFirstGo_append]
    rw [uniqFirstGo_eq_self (by simp) hnd, List.append_nil]
  refine ⟨?_, ?_, ?_, key, ?_⟩
  · intro u hu
    rw [key]
    exact List.mem_append_left _ (List.mem_map_of_mem User.telegram_id hu)
  · intro a ha
    rw [key]
    by_cases hmem : a ∈ users.map User.telegram_id
    · exact List.mem_append_left _ hmem
    · exact List.mem_append_right _ (mem_uniqFirstGo.mpr ⟨ha, hmem⟩)
  · rw [key]
    refine List.nodup_append.mpr ⟨hnd, nodup_uniqFirstGo _ _, ?_⟩
    intro a ha hmem
    exact (mem_uniqFirstGo.mp hmem).2 ha
  · intro a ha
    exact ⟨(mem_uniqFirstGo.mp ha).1, (mem_uniqFirstGo.mp ha).2⟩

/-- Witness for C3 on a concrete store: two subscribers (ids 100 and 7, the
second also an administrator) and administrators `[5, 7]`. -/
theorem C3_all_recipients_witness :
    resolveRecipients [⟨1, 100, some "a"⟩, ⟨2, 7, none⟩] [5, 7] "all" = [100, 7, 5] ∧
    7 ∈ resolveRecipients [⟨1, 100, some "a"⟩, ⟨2, 7, none⟩] [5, 7] "all" := by
  have h := C3_all_recipients [⟨1, 100, some "a"⟩, ⟨2, 7, none⟩] [5, 7] (by decide)
  exact ⟨by rw [h.2.2.2.1]; decide, h.2.1 7 (by decide)⟩

/-- C7: a post level that is neither `"admins"` nor `"all"` nor the level of
any registered subscriber resolves to exactly the configured administrator
ids (deduplicated, in order), with no error. -/
theorem C7_unknown_level_resolves_to_admins (users : List User) (admin_ids : List Int)
    (level : String) (hadm : level ≠ "admins") (hall : level ≠ "all")
    (hnone : ∀ u ∈ users, u.level ≠ some level) :
    resolveRecipients users admin_ids level = uniqFirst admin_ids ∧
    (∀ x, x ∈ resolveRecipients users admin_ids level ↔ x ∈ admin_ids) := by
  have hempty : get_users_by_level users level = [] := by
    rw [get_users_by_level, List.filter_eq_nil_iff]
    intro u hu
    simpa using hnone u hu
  have key : resolveRecipients users admin_ids level = uniqFirst admin_ids := by
    rw [resolveRecipients, if_neg hadm, if_neg hall, hempty]
    simp
  refine ⟨key, fun x => ?_⟩
  rw [key, uniqFirst, mem_uniqFirstGo]
  simp

/-- Witness for C7: legacy level `"legacy_tier"`, one subscriber in cohort
`"starters"`, administrators `[5, 5, 7]`. -/
theorem C7_unknown_level_witness :
    resolveRecipients [⟨1, 100, some "starters"⟩] [5, 5, 7] "legacy_tier" = [5, 7] := by
  have h := C7_unknown_level_resolves_to_admins [⟨1, 100, some "starters"⟩] [5, 5, 7]
    "legacy_tier" (by decide) (by decide) (by decide)
  rw [h.1]
  decide

/- ---------------------------------------------------------------------
   C1: behaviour of the delivery loop under a rate-limit signal.
   --------------------------------------------------------------------- -/

theorem countAttempts_nil (chat : Int) : countAttempts chat [] = 0 := rfl

theorem countAttempts_cons (chat : Int) (e : LoopEvent) (evs : List LoopEvent) :
    countAttempts chat (e :: evs) =
      (if e = LoopEvent.attempt chat then 1 else 0) + countAttempts chat evs := by
  by_cases h : e = LoopEvent.attempt chat <;>
    simp [countAttempts, List.filter_cons, h, Nat.add_comm]

theorem deliverLoop_not_mem (outcomes : Int → List Outcome) {chat : Int} :
    ∀ {l : List Int}, chat ∉ l →
      countAttempts chat (deliverLoop outcomes l).2.2 = 0 ∧
      chat ∉ (deliverLoop outcomes l).2.1 := by
  intro l h
  induction l with
  | nil => exact ⟨rfl, by simp [deliverLoop]⟩
  | cons x xs ih =>
    have hx : chat ≠ x := fun he => h (he ▸ List.mem_cons_self x xs)
    have hxs : chat ∉ xs := fun hm => h (List.mem_cons_of_mem x hm)
    obtain ⟨ih1, ih2⟩ := ih hxs
    cases ho : (outcomes x).headD Outcome.success <;>
      simp_all [deliverLoop, ho, countAttempts, List.filter_cons, hx, Ne.symm hx]

/-- C1, counterexample: one recipient (chat 7) whose first send raises
`TelegramRetryAfter 3` and whose retry would succeed.  The run makes exactly
one attempt to chat 7 (no retry), sleeps 3.5 s, counts nobody in
`sent_count`, and moves on — so the recipient is lost from `delivered`,
contrary to the claim that the run retries that recipient and counts it. -/
theorem C1_counterexample :
    deliverLoop (fun _ => [Outcome.retryAfter 3, Outcome.success]) [7] =
      (0, [], [LoopEvent.attempt 7, LoopEvent.sleepMs 3500]) ∧
    countAttempts 7 (deliverLoop (fun _ => [Outcome.retryAfter 3, Outcome.success]) [7]).2.2 = 1 ∧
    (fun _ => [Outcome.retryAfter 3, Outcome.success] : Int → List Outcome) 7 =
      [Outcome.retryAfter 3, Outcome.success] := by
  exact ⟨by decide, by decide, rfl⟩

/-- C1, amended: when a recipient's send raises `TelegramRetryAfter t`, the
run pauses for `t + 0.5` seconds and then moves on to the next recipient —
the rate-limited recipient is attempted exactly once (never retried) and is
not counted in `delivered`. -/
theorem C1_rate_limit_no_retry (outcomes : Int → List Outcome) (chats : List Int)
    (chat : Int) (t : Nat) (rest : List Outcome)
    (hmem : chat ∈ chats) (hnd : chats.Nodup)
    (hout : outcomes chat = Outcome.retryAfter t :: rest) :
    countAttempts chat (deliverLoop outcomes chats).2.2 = 1 ∧
    LoopEvent.sleepMs (1000 * t + 500) ∈ (deliverLoop outcomes chats).2.2 ∧
    chat ∉ (deliverLoop outcomes chats).2.1 := by
  induction chats with
  | nil => cases hmem
  | cons x xs ih =>
    rcases List.mem_cons.mp hmem with rfl | hmemxs
    · have hxs : chat ∉ xs := (List.nodup_cons.mp hnd).1
      obtain ⟨h1, h2⟩ := deliverLoop_not_mem outcomes hxs
      refine ⟨?_, ?_, ?_⟩
      · simp [deliverLoop, hout, countAttempts_cons, h1]
      · simp [deliverLoop, hout]
      · simpa [deliverLoop, hout] using h2
    · have hx : chat ≠ x := by
        rintro rfl
        exact (List.nodup_cons.mp hnd).1 hmemxs
      obtain ⟨ih1, ih2, ih3⟩ := ih hmemxs (List.nodup_cons.mp hnd).2
      cases ho : (outcomes x).headD Outcome.success <;>
        simp_all [deliverLoop, ho, countAttempts_cons, hx, Ne.symm hx]

/-- Witness for the amended C1: chat 5 is rate-limited for 2 seconds in a
run over recipients `[5, 9]`. -/
theorem C1_rate_limit_no_retry_witness :
    countAttempts 5 (deliverLoop
      (fun c => if c = 5 then [Outcome.retryAfter 2] else [Outcome.success]) [5, 9]).2.2 = 1 ∧
    LoopEvent.sleepMs 2500 ∈ (deliverLoop
      (fun c => if c = 5 then [Outcome.retryAfter 2] else [Outcome.success]) [5, 9]).2.2 ∧
    5 ∉ (deliverLoop
      (fun c => if c = 5 then [Outcome.retryAfter 2] else [Outcome.success]) [5, 9]).2.1 := by
  have h := C1_rate_limit_no_retry
    (fun c => if c = 5 then [Outcome.retryAfter 2] else [Outcome.success]) [5, 9] 5 2 []
    (by decide) (by decide) (by decide)
  simpa using h

/- ---------------------------------------------------------------------
   C4, C10, C2: scheduling paths.
   --------------------------------------------------------------------- -/

/-- C4: on a post with `sent == true`, `schedule_or_send_now` is a no-op
(job table unchanged, nothing dispatched) regardless of `send_at`, and a
stale `_send_post` run that re-reads such a post returns without any send,
any store change, or any summary. -/
theorem C4_sent_post_noop (jobs : List Job) (post : Post) (now : Int)
    (posts : List Post) (users : List User) (admin_ids : List Int)
    (outcomes : Int → List Outcome) (post_id : Int)
    (hsent : post.sent = true) (hstale : get_post posts post_id = some post) :
    schedule_or_send_now jobs post now = (jobs, []) ∧
    send_post posts users admin_ids outcomes post_id now = ⟨posts, 0, 0, [], [], false⟩ := by
  constructor
  · simp [schedule_or_send_now, hsent]
  · simp [send_post, hstale, hsent]

/-- Witness for C4: post 9 is already sent; a pending job for it is left
untouched and a stale delivery run does nothing. -/
theorem C4_sent_post_noop_witness :
    schedule_or_send_now [("post_9", 50)]
        ⟨9, "", "all", "x", none, none, 50, true, some 49, 0, 0⟩ 100 =
      ([("post_9", 50)], []) ∧
    send_post [⟨9, "", "all", "x", none, none, 50, true, some 49, 0, 0⟩] [] []
        (fun _ => [Outcome.success]) 9 100 =
      ⟨[⟨9, "", "all", "x", none, none, 50, true, some 49, 0, 0⟩], 0, 0, [], [], false⟩ :=
  C4_sent_post_noop [("post_9", 50)] ⟨9, "", "all", "x", none, none, 50, true, some 49, 0, 0⟩
    100 [⟨9, "", "all", "x", none, none, 50, true, some 49, 0, 0⟩] [] []
    (fun _ => [Outcome.success]) 9 rfl (by decide)

/-- C10: on the immediate path (unsent, due post), `schedule_or_send_now`
first removes any armed timer keyed by the post's job id and then dispatches,
so afterwards no timer for that post id remains in the job table. -/
theorem C10_due_path_clears_timer (jobs : List Job) (post : Post) (now : Int)
    (hsent : post.sent = false) (hdue : post.send_at ≤ now) :
    ((schedule_or_send_now jobs post now).1.filter fun j => j.1 == job_id post.id) = [] ∧
    (schedule_or_send_now jobs post now).2 = [SchedAction.dispatch post.id] := by
  have hjobs : (schedule_or_send_now jobs post now).1 = remove_job jobs (job_id post.id) := by
    simp [schedule_or_send_now, hsent, hdue]
  refine ⟨?_, by simp [schedule_or_send_now, hsent, hdue]⟩
  rw [hjobs, remove_job, List.filter_filter, List.filter_eq_nil_iff]
  intro j _
  cases h : j.1 == job_id post.id <;> simp [h]

/-- Witness for C10: a stale timer for post 3 is armed; rescheduling the
now-due post 3 clears it and dispatches. -/
theorem C10_due_path_clears_timer_witness :
    ((schedule_or_send_now [(job_id 3, 100)]
        ⟨3, "", "all", "x", none, none, 5, false, none, 0, 0⟩ 10).1.filter
      fun j => j.1 == job_id 3) = [] ∧
    (schedule_or_send_now [(job_id 3, 100)]
        ⟨3, "", "all", "x", none, none, 5, false, none, 0, 0⟩ 10).2 =
      [SchedAction.dispatch 3] :=
  C10_due_path_clears_timer [(job_id 3, 100)]
    ⟨3, "", "all", "x", none, none, 5, false, none, 0, 0⟩ 10 rfl (by decide)

/-- C2, counterexample: a timer that wakes 3601 seconds (one hour and one
second) after its scheduled `send_at` does not fire — it is skipped by the
misfire policy configured with `misfire_grace_time=60*60` — contrary to the
claim that a timer later than one hour past `send_at` is still fired. -/
theorem C2_counterexample :
    timerFires 0 3601 = false ∧ (3600 : Int) < 3601 - 0 := by
  decide

/-- C2, amended: an armed timer (which `schedule_or_send_now` arms at
`send_at` for an unsent future post) still fires when it overshoots
`send_at` by up to one hour; when it wakes more than one hour past
`send_at`, the run is skipped by the misfire policy instead of fired. -/
theorem C2_misfire_window (jobs : List Job) (post : Post) (now wake : Int)
    (hsent : post.sent = false) (hfut : now < post.send_at) :
    (job_id post.id, post.send_at) ∈ (schedule_or_send_now jobs post now).1 ∧
    (wake - post.send_at ≤ 3600 → timerFires post.send_at wake = true) ∧
    (3600 < wake - post.send_at → timerFires post.send_at wake = false) := by
  have hnle : ¬post.send_at ≤ now := not_le.mpr hfut
  refine ⟨?_, ?_, ?_⟩
  · simp [schedule_or_send_now, hsent, hnle]
  · intro h
    simp only [timerFires, misfire_grace_time, decide_eq_true_eq]
    omega
  · intro h
    simp only [timerFires, misfire_grace_time, decide_eq_false_iff_not]
    omega

/-- Witness for the amended C2: post 4 scheduled at 200 is armed; a wakeup
at 3800 (3600 late) fires, a wakeup at 3801 does not. -/
theorem C2_misfire_window_witness :
    (job_id 4, (200 : Int)) ∈ (schedule_or_send_now []
      ⟨4, "", "all", "x", none, none, 200, false, none, 0, 0⟩ 100).1 ∧
    timerFires 200 3800 = true ∧ timerFires 200 3801 = false := by
  have h := C2_misfire_window [] ⟨4, "", "all", "x", none, none, 200, false, none, 0, 0⟩
    100 3800 rfl (by decide)
  have h2 := C2_misfire_window [] ⟨4, "", "all", "x", none, none, 200, false, none, 0, 0⟩
    100 3801 rfl (by decide)
  exact ⟨h.1, h.2.1 (by decide), h2.2.2 (by decide)⟩

/- ---------------------------------------------------------------------
   C8, C6: content rendering.
   --------------------------------------------------------------------- -/

/-- C8, counterexample: a post with no album, no single media item and empty
title/text falls through to the text branch and makes one platform send call
(`send_message` with empty text) — contrary to the claim that no platform
send call is made. -/
theorem C8_counterexample :
    deliver_post_to_user ⟨1, "", "all", "", none, none, 0, false, none, 0, 0⟩ [] =
      [SendCall.message ""] := by
  decide

/-- C8, amended: for a post with no album, no single media item and empty
title and text, delivery makes exactly one platform call — a text message
with the empty body (whose rejection by the platform is then caught by the
per-recipient error handling of the delivery loop) — rather than none. -/
theorem C8_empty_post_single_empty_message (post : Post) (media_items : List MediaItem)
    (htitle : post.title = "") (htext : post.text = "") (hmt : post.media_type = none)
    (hfid : post.file_id = none) (hitems : media_items = []) :
    deliver_post_to_user post media_items = [SendCall.message ""] := by
  subst hitems
  simp [deliver_post_to_user, htext, hmt, hfid, optTruthy, pyStrip, pyLower]

/-- Witness for the amended C8 on a concrete empty post. -/
theorem C8_empty_post_witness :
    deliver_post_to_user ⟨2, "", "starters", "", none, none, 7, false, none, 0, 0⟩ [] =
      [SendCall.message ""] :=
  C8_empty_post_single_empty_message ⟨2, "", "starters", "", none, none, 7, false, none, 0, 0⟩
    [] rfl rfl rfl rfl rfl

theorem albumItemsFrom_pos (c : String) (items : List MediaItem)
    (h : ∀ it ∈ items, pyLower (pyStrip it.media_type) = "photo" ∨
      pyLower (pyStrip it.media_type) = "video") :
    ∀ idx, 0 < idx →
      (albumItemsFrom c idx items).map AlbumItem.caption =
        List.replicate items.length none := by
  induction items with
  | nil => intro idx _; rfl
  | cons it rest ih =>
    intro idx hidx
    have hit := h it (List.mem_cons_self it rest)
    have hrest := fun x hx => h x (List.mem_cons_of_mem it hx)
    have hne : ¬idx = 0 := Nat.pos_iff_ne_zero.mp hidx
    rcases hit with hph | hvd
    · simp [albumItemsFrom, hph, hne, List.replicate_succ,
        ih hrest (idx + 1) (Nat.succ_pos idx)]
    · by_cases hph2 : pyLower (pyStrip it.media_type) = "photo"
      · simp [albumItemsFrom, hph2, hne, List.replicate_succ,
          ih hrest (idx + 1) (Nat.succ_pos idx)]
      · simp [albumItemsFrom, hph2, hvd, hne, List.replicate_succ,
          ih hrest (idx + 1) (Nat.succ_pos idx)]

theorem albumOf_captions (c : String) (items : List MediaItem) (hne : items ≠ [])
    (h : ∀ it ∈ items, pyLower (pyStrip it.media_type) = "photo" ∨
      pyLower (pyStrip it.media_type) = "video") :
    (albumOf c items).map AlbumItem.caption =
      some c :: List.replicate (items.length - 1) none := by
  cases items with
  | nil => exact absurd rfl hne
  | cons it rest =>
    have hit := h it (List.mem_cons_self it rest)
    have hrest := fun x hx => h x (List.mem_cons_of_mem it hx)
    have htail := albumItemsFrom_pos c rest hrest 1 Nat.one_pos
    rcases hit with hph | hvd
    · simp [albumOf, albumItemsFrom, hph, htail]
    · by_cases hph2 : pyLower (pyStrip it.media_type) = "photo"
      · simp [albumOf, albumItemsFrom, hph2, htail]
      · simp [albumOf, albumItemsFrom, hph2, hvd, htail]

set_option maxRecDepth 8000 in
/-- C6, counterexample: a post whose text is 1025 whitespace characters
(length > 1024) delivered with a two-photo album.  The claim requires the
full text to follow as one separate trailing message; the code strips the
tail text before sending, finds it empty, and sends only the grouped album
(whose first item carries the empty-string caption argument). -/
theorem C6_counterexample :
    1024 < (⟨List.replicate 1025 ' '⟩ : String).length ∧
    deliver_post_to_user
        ⟨1, "", "all", ⟨List.replicate 1025 ' '⟩, none, none, 0, false, none, 0, 0⟩
        [⟨"photo", "f1"⟩, ⟨"photo", "f2"⟩] =
      [SendCall.mediaGroup [⟨true, "f1", some ""⟩, ⟨true, "f2", none⟩]] := by
  exact ⟨by decide, by decide⟩

/-- C6, amended: for a post delivered with an album of photos/videos, the
album goes out as one grouped call carrying every item.  Text of length
≤ 1024 becomes the caption of the first album item only and no separate
text message follows.  Text longer than 1024 leaves the album with no
caption text (the first item carries the empty caption argument, the rest
none) and the full text follows as one separate trailing message only if
it is not entirely whitespace; a whitespace-only text sends no trailing
message. -/
theorem C6_album_delivery (post : Post) (media_items : List MediaItem)
    (hne : media_items ≠ [])
    (htypes : ∀ it ∈ media_items, pyLower (pyStrip it.media_type) = "photo" ∨
      pyLower (pyStrip it.media_type) = "video") :
    (post.text.length ≤ 1024 →
      deliver_post_to_user post media_items =
        [SendCall.mediaGroup (albumOf post.text media_items)] ∧
      (albumOf post.text media_items).map AlbumItem.caption =
        some post.text :: List.replicate (media_items.length - 1) none) ∧
    (1024 < post.text.length →
      deliver_post_to_user post media_items =
        SendCall.mediaGroup (albumOf "" media_items) ::
          (if !(pyStrip post.text).isEmpty then [SendCall.message post.text] else []) ∧
      (albumOf "" media_items).map AlbumItem.caption =
        some "" :: List.replicate (media_items.length - 1) none) := by
  have hne' : media_items.isEmpty = false := by
    cases media_items <;> simp_all
  have h0 : (pyStrip "").isEmpty = true := by decide
  have hemp : ("" : String).isEmpty = true := rfl
  constructor
  · intro hlen
    have hcap := albumOf_captions post.text media_items hne htypes
    have halb : (albumOf post.text media_items).isEmpty = false := by
      cases h : albumOf post.text media_items
      · rw [h] at hcap; simp at hcap
      · rfl
    refine ⟨?_, hcap⟩
    by_cases htxt : post.text = ""
    · rw [htxt] at halb hlen
      simp [deliver_post_to_user, hne', hlen, halb, h0, hemp, htxt]
    · have hte : post.text.isEmpty = false := by
        cases h : post.text.isEmpty
        · rfl
        · exact absurd ((String.isEmpty_iff post.text).mp h) htxt
      simp [deliver_post_to_user, hne', hlen, halb, hte, h0]
  · intro hlen
    have hnle : ¬post.text.length ≤ 1024 := not_le.mpr hlen
    have hcap := albumOf_captions "" media_items hne htypes
    have halb : (albumOf "" media_items).isEmpty = false := by
      cases h : albumOf "" media_items
      · rw [h] at hcap; simp at hcap
      · rfl
    refine ⟨?_, hcap⟩
    simp [deliver_post_to_user, hne', hnle, halb, hemp]

/-- Witness for the amended C6: text `"hi"` with a photo-and-video album is
sent as one grouped call with the caption on the first item only. -/
theorem C6_album_delivery_witness :
    deliver_post_to_user ⟨3, "", "all", "hi", none, none, 0, false, none, 0, 0⟩
        [⟨"photo", "f1"⟩, ⟨"video", "f2"⟩] =
      [SendCall.mediaGroup [⟨true, "f1", some "hi"⟩, ⟨false, "f2", none⟩]] := by
  have h := (C6_album_delivery ⟨3, "", "all", "hi", none, none, 0, false, none, 0, 0⟩
    [⟨"photo", "f1"⟩, ⟨"video", "f2"⟩] (by decide) (by decide)).1 (by decide)
  rw [h.1]
  decide

/- ---------------------------------------------------------------------
   C9: the sent/sent_at invariant across the post-store operations.
   --------------------------------------------------------------------- -/

/-- C9: the invariant `sent == true ⇒ sent_at != null` is preserved by every
post-store operation; `mark_post_sent` sets `sent` and `sent_at` together,
and `update_post_send_time` resets both (`sent = false`, `sent_at = null`). -/
theorem C9_sent_at_invariant (posts : List Post) (h : storeInv posts)
    (post_id new_id : Int) (title text level : String)
    (send_at sent_at now : Int) (media_type file_id : Option String)
    (title? text? : Option String) :
    storeInv (create_post posts title text send_at level new_id now) ∧
    storeInv (mark_post_sent posts post_id sent_at now) ∧
    (∀ p ∈ mark_post_sent posts post_id sent_at now,
      p.id = post_id → p.sent = true ∧ p.sent_at = some sent_at) ∧
    storeInv (update_post_send_time posts post_id send_at now) ∧
    (∀ p ∈ update_post_send_time posts post_id send_at now,
      p.id = post_id → p.sent = false ∧ p.sent_at = none) ∧
    storeInv (update_post_text_title posts post_id title? text? now) ∧
    storeInv (update_post_content posts post_id text media_type file_id now) ∧
    storeInv (update_post_level posts post_id level now) ∧
    storeInv (delete_post posts post_id) := by
  refine ⟨?_, ?_, ?_, ?_, ?_, ?_, ?_, ?_, ?_⟩
  · intro p hp
    rcases List.mem_append.mp hp with hmem | hmem
    · exact h p hmem
    · simp only [List.mem_singleton] at hmem
      subst hmem
      intro hs
      cases hs
  · intro p hp
    obtain ⟨q, hq, rfl⟩ := List.mem_map.mp hp
    by_cases hid : q.id = post_id
    · simp [hid, postInv]
    · simpa [hid] using h q hq
  · intro p hp hpid
    obtain ⟨q, hq, rfl⟩ := List.mem_map.mp hp
    by_cases hid : q.id = post_id
    · simp [hid]
    · rw [if_neg hid] at hpid
      exact absurd hpid hid
  · intro p hp
    obtain ⟨q, hq, rfl⟩ := List.mem_map.mp hp
    by_cases hid : q.id = post_id
    · simp [hid, postInv]
    · simpa [hid] using h q hq
  · intro p hp hpid
    obtain ⟨q, hq, rfl⟩ := List.mem_map.mp hp
    by_cases hid : q.id = post_id
    · simp [hid]
    · rw [if_neg hid] at hpid
      exact absurd hpid hid
  · intro p hp
    obtain ⟨q, hq, rfl⟩ := List.mem_map.mp hp
    by_cases hid : q.id = post_id
    · have := h q hq
      simp only [postInv] at this ⊢
      simpa [hid] using this
    · simpa [hid] using h q hq
  · intro p hp
    obtain ⟨q, hq, rfl⟩ := List.mem_map.mp hp
    by_cases hid : q.id = post_id
    · have := h q hq
      simp only [postInv] at this ⊢
      simpa [hid] using this
    · simpa [hid] using h q hq
  · intro p hp
    obtain ⟨q, hq, rfl⟩ := List.mem_map.mp hp
    by_cases hid : q.id = post_id
    · have := h q hq
      simp only [postInv] at this ⊢
      simpa [hid] using this
    · simpa [hid] using h q hq
  · intro p hp
    exact h p (List.mem_of_mem_filter hp)

/-- Witness for C9 on a concrete store (one sent post with a send time, one
unsent post) and the operation arguments used by the scheduler. -/
theorem C9_sent_at_invariant_witness :
    storeInv (mark_post_sent
      [⟨1, "a", "all", "x", none, none, 10, true, some 11, 0, 0⟩,
       ⟨2, "b", "all", "y", none, none, 20, false, none, 0, 0⟩] 2 50 60) ∧
    storeInv (update_post_send_time
      [⟨1, "a", "all", "x", none, none, 10, true, some 11, 0, 0⟩,
       ⟨2, "b", "all", "y", none, none, 20, false, none, 0, 0⟩] 1 70 60) := by
  have h := C9_sent_at_invariant
    [⟨1, "a", "all", "x", none, none, 10, true, some 11, 0, 0⟩,
     ⟨2, "b", "all", "y", none, none, 20, false, none, 0, 0⟩]
    (by decide) 2 3 "t" "x" "all" 70 50 60 none none none none
  have h2 := C9_sent_at_invariant
    [⟨1, "a", "all", "x", none, none, 10, true, some 11, 0, 0⟩,
     ⟨2, "b", "all", "y", none, none, 20, false, none, 0, 0⟩]
    (by decide) 1 3 "t" "x" "all" 70 50 60 none none none none
  exact ⟨h.2.1, h2.2.2.2.1⟩

/- ---------------------------------------------------------------------
   C5: startup reconciliation.
   --------------------------------------------------------------------- -/

theorem filter_map_comm {α β : Type} (f : α → β) (pr : β → Bool) (l : List α) :
    (l.map f).filter pr = (l.filter fun a => pr (f a)).map f := by
  induction l with
  | nil => rfl
  | cons x xs ih =>
    by_cases h : pr (f x) <;> simp [List.filter_cons, h, ih]

theorem filter_eq_singleton_of_nodup_map {α β : Type} [DecidableEq β]
    (f : α → β) {l : List α} {p : α}
    (hnd : (l.map f).Nodup) (hp : p ∈ l) :
    l.filter (fun a => f a == f p) = [p] := by
  induction l with
  | nil => cases hp
  | cons x xs ih =>
    rw [List.map_cons, List.nodup_cons] at hnd
    rcases List.mem_cons.mp hp with rfl | hpxs
    · rw [List.filter_cons, if_pos (by simp)]
      congr 1
      rw [List.filter_eq_nil_iff]
      intro a ha
      simp only [beq_iff_eq]
      intro he
      exact hnd.1 (he ▸ List.mem_map_of_mem f ha)
    · rw [List.filter_cons, if_neg ?_]
      · exact ih hnd.2 hpxs
      · simp only [beq_iff_eq]
        intro he
        exact hnd.1 (he ▸ List.mem_map_of_mem f hpxs)

theorem arm_loop_eq (now : Int) :
    ∀ (l : List Post) (js : List Job) (acts : List SchedAction),
      (∀ p ∈ l, p.sent = false ∧ now < p.send_at) →
      ((l.map fun p => job_id p.id).Nodup) →
      (∀ p ∈ l, ∀ j ∈ js, ¬j.1 = job_id p.id) →
      arm_loop now l (js, acts) =
        (js ++ l.map fun p => (job_id p.id, p.send_at), acts) := by
  intro l
  induction l with
  | nil =>
    intro js acts _ _ _
    simp [arm_loop]
  | cons p l' ih =>
    intro js acts hprops hnd hpre
    have hp := hprops p (List.mem_cons_self p l')
    have hnle : ¬p.send_at ≤ now := not_le.mpr hp.2
    have hrm : remove_job js (job_id p.id) = js := by
      rw [remove_job, List.filter_eq_self]
      intro j hj
      simp [hpre p (List.mem_cons_self p l') j hj]
    have hstep : schedule_or_send_now js p now = (js ++ [(job_id p.id, p.send_at)], []) := by
      simp [schedule_or_send_now, hp.1, hnle, hrm]
    rw [List.map_cons, List.nodup_cons] at hnd
    have hpre2 : ∀ q ∈ l', ∀ j ∈ js ++ [(job_id p.id, p.send_at)], ¬j.1 = job_id q.id := by
      intro q hq j hj
      rcases List.mem_append.mp hj with hj2 | hj2
      · exact hpre q (List.mem_cons_of_mem p hq) j hj2
      · simp only [List.mem_singleton] at hj2
        subst hj2
        intro he
        refine hnd.1 ?_
        rw [show job_id p.id = job_id q.id from he]
        exact List.mem_map_of_mem (fun q => job_id q.id) hq
    have hloop : arm_loop now (p :: l') (js, acts) =
        arm_loop now l' (js ++ [(job_id p.id, p.send_at)], acts) := by
      simp [arm_loop, List.foldl_cons, hstep]
    rw [hloop, ih (js ++ [(job_id p.id, p.send_at)]) acts
      (fun q hq => hprops q (List.mem_cons_of_mem p hq)) hnd.2 hpre2]
    simp

/-- C5: startup reconciliation — for every post in the store: an unsent post
whose `send_at` is already past is dispatched for immediate delivery; an
unsent future post gets exactly one armed timer (at its `send_at`); a post
with `sent == true` gets neither a dispatch nor a timer. -/
theorem C5_startup_reconciliation (posts : List Post) (now : Int) (p : Post)
    (hp : p ∈ posts) (hnd : (posts.map fun q => job_id q.id).Nodup) :
    (p.sent = false → p.send_at ≤ now →
      SchedAction.dispatch p.id ∈ (setup_scheduler posts now).2) ∧
    (p.sent = false → now < p.send_at →
      ((setup_scheduler posts now).1.filter fun j => j.1 == job_id p.id) =
        [(job_id p.id, p.send_at)]) ∧
    (p.sent = true →
      SchedAction.dispatch p.id ∉ (setup_scheduler posts now).2 ∧
      ((setup_scheduler posts now).1.filter fun j => j.1 == job_id p.id) = []) := by
  have hfutprops : ∀ q ∈ get_unsent_future_posts posts now,
      q.sent = false ∧ now < q.send_at := by
    intro q hq
    have h2 := (List.mem_filter.mp hq).2
    simp only [Bool.and_eq_true, Bool.not_eq_true', decide_eq_true_eq] at h2
    exact h2
  have hfutmem : ∀ q ∈ get_unsent_future_posts posts now, q ∈ posts := by
    intro q hq
    exact (List.mem_filter.mp hq).1
  have hinj := List.inj_on_of_nodup_map hnd
  have hndfut : ((get_unsent_future_posts posts now).map fun q => job_id q.id).Nodup :=
    List.Nodup.sublist (List.Sublist.map _ (List.filter_sublist posts)) hnd
  have harm := arm_loop_eq now (get_unsent_future_posts posts now) [] []
    hfutprops hndfut (by intro q _ j hj; cases hj)
  have hsetup : setup_scheduler posts now =
      ((get_unsent_future_posts posts now).map fun q => (job_id q.id, q.send_at),
       (get_unsent_due_posts posts now).map fun q => SchedAction.dispatch q.id) := by
    simp only [setup_scheduler]
    rw [harm]
    simp
  refine ⟨?_, ?_, ?_⟩
  · intro hs hd
    rw [hsetup]
    exact List.mem_map_of_mem _ (List.mem_filter.mpr ⟨hp, by simp [hs, hd]⟩)
  · intro hs hd
    have hpfut : p ∈ get_unsent_future_posts posts now :=
      List.mem_filter.mpr ⟨hp, by simp [hs, hd]⟩
    rw [hsetup]
    have hcomm := filter_map_comm (fun q : Post => (job_id q.id, q.send_at))
      (fun j => j.1 == job_id p.id) (get_unsent_future_posts posts now)
    simp only at hcomm
    rw [hcomm, filter_eq_singleton_of_nodup_map (fun q : Post => job_id q.id) hndfut hpfut]
    rfl
  · intro hs
    constructor
    · rw [hsetup]
      intro hmem
      simp only [List.mem_map] at hmem
      obtain ⟨q, hq, heq⟩ := hmem
      have hqid : q.id = p.id := by
        injection heq
      have hq2 := List.mem_filter.mp hq
      have : q = p := hinj (hq2.1) hp (by rw [hqid])
      subst this
      have h2 := hq2.2
      simp only [Bool.and_eq_true, Bool.not_eq_true', decide_eq_true_eq] at h2
      rw [hs] at h2
      exact Bool.true_eq_false.mp h2.1
    · rw [hsetup]
      have hcomm := filter_map_comm (fun q : Post => (job_id q.id, q.send_at))
        (fun j => j.1 == job_id p.id) (get_unsent_future_posts posts now)
      simp only at hcomm
      rw [hcomm]
      have hnil : ((get_unsent_future_posts posts now).filter
          fun q => job_id q.id == job_id p.id) = [] := by
        rw [List.filter_eq_nil_iff]
        intro q hq
        simp only [beq_iff_eq]
        intro he
        have heqp : q = p := hinj (hfutmem q hq) hp he
        subst heqp
        have h2 := (List.mem_filter.mp hq).2
        simp [hs] at h2
      rw [hnil]
      rfl

/-- Witness for C5 on a concrete store at startup time 100: post 1 is unsent
and due (send_at 50), post 2 is unsent and future (send_at 200), post 3 is
already sent. -/
theorem C5_startup_reconciliation_witness :
    SchedAction.dispatch 1 ∈ (setup_scheduler
      [⟨1, "", "all", "x", none, none, 50, false, none, 0, 0⟩,
       ⟨2, "", "all", "y", none, none, 200, false, none, 0, 0⟩,
       ⟨3, "", "all", "z", none, none, 40, true, some 41, 0, 0⟩] 100).2 ∧
    ((setup_scheduler
      [⟨1, "", "all", "x", none, none, 50, false, none, 0, 0⟩,
       ⟨2, "", "all", "y", none, none, 200, false, none, 0, 0⟩,
       ⟨3, "", "all", "z", none, none, 40, true, some 41, 0, 0⟩] 100).1.filter
        fun j => j.1 == job_id 2) = [(job_id 2, 200)] ∧
    SchedAction.dispatch 3 ∉ (setup_scheduler
      [⟨1, "", "all", "x", none, none, 50, false, none, 0, 0⟩,
       ⟨2, "", "all", "y", none, none, 200, false, none, 0, 0⟩,
       ⟨3, "", "all", "z", none, none, 40, true, some 41, 0, 0⟩] 100).2 := by
  have h1 := C5_startup_reconciliation
    [⟨1, "", "all", "x", none, none, 50, false, none, 0, 0⟩,
     ⟨2, "", "all", "y", none, none, 200, false, none, 0, 0⟩,
     ⟨3, "", "all", "z", none, none, 40, true, some 41, 0, 0⟩] 100
    ⟨1, "", "all", "x", none, none, 50, false, none, 0, 0⟩ (by decide) (by decide)
  have h2 := C5_startup_reconciliation
    [⟨1, "", "all", "x", none, none, 50, false, none, 0, 0⟩,
     ⟨2, "", "all", "y", none, none, 200, false, none, 0, 0⟩,
     ⟨3, "", "all", "z", none, none, 40, true, some 41, 0, 0⟩] 100
    ⟨2, "", "all", "y", none, none, 200, false, none, 0, 0⟩ (by decide) (by decide)
  have h3 := C5_startup_reconciliation
    [⟨1, "", "all", "x", none, none, 50, false, none, 0, 0⟩,
     ⟨2, "", "all", "y", none, none, 200, false, none, 0, 0⟩,
     ⟨3, "", "all", "z", none, none, 40, true, some 41, 0, 0⟩] 100
    ⟨3, "", "all", "z", none, none, 40, true, some 41, 0, 0⟩ (by decide) (by decide)
  exact ⟨h1.1 rfl (by decide), h2.2.1 rfl (by decide), (h3.2.2 rfl).1⟩

end EnglishBot
